import Mathlib

/-!
A verification development for `parse_directory.py`: a shallow embedding of
its directory-tree walker and content-rendering strategies, together with
theorems settling the specification claims about them.

Modelling conventions:
* Text is modelled as Lean `String`s; character-level operations from Python
  (`str.rstrip`, `str.lower`, `str.startswith`, sorting by code point) are
  carried out on `String.data` (`List Char`), which matches Python's
  code-point semantics for the ASCII/Unicode names involved.
* The filesystem is a value of a rose-tree type `FSNode`.  `os.listdir`,
  `os.path.isdir`, `os.path.isfile` are queries against this tree.  A
  directory whose listing raises `PermissionError` (resp. `FileNotFoundError`)
  is the node `dirDenied` (resp. `dirVanished`); both still answer `True` to
  `os.path.isdir` (that check happened in the parent before the race).
  `os.path.isdir`/`os.path.isfile` follow symlinks, so a symlink is
  represented directly by the node its target resolves to (`dir`, `file`, or
  `other` when it resolves to neither).
* The byte-level result of opening a file under a given codec with
  `errors='strict'` is abstracted by `FileData.textRead : String →
  DecodeOutcome`; a successful strict decode yields the iterated lines
  (with their line terminators, as Python's file iteration does).  A failed
  strict decode (`UnicodeDecodeError`) yields no lines: CPython reads the
  file through a buffered text wrapper, and for a file read within one
  buffer the decode error surfaces before any line is yielded.  An I/O
  failure is modelled at `open` time.  Similarly the result of
  `json.load` on the file is abstracted by `FileData.notebookRead`.
* Output is the list of lines written to the output file object, each
  `write` of the source contributing one line (every `write` in the source
  ends in a single newline).
-/

/-- Constant `STRUCTURE_ONLY_FILENAME` from the source. -/
def STRUCTURE_ONLY_FILENAME : String := "folder_structure.txt"

/-- Constant `STRUCTURE_WITH_CONTENT_FILENAME` from the source. -/
def STRUCTURE_WITH_CONTENT_FILENAME : String := "folder_structure_with_content.txt"

/-- Constant `MAX_FILE_CONTENT_LINES = 10e10` from the source.  The Python
value is the float `1.0e11`; line counters are integers compared against it,
so it acts as the natural number `10^11`.  (Only its numeric value matters to
the claims; its rendering inside header lines is not at issue.) -/
def MAX_FILE_CONTENT_LINES : Nat := 100000000000

/-- Constant `CSV_PREVIEW_LINES = 10` from the source. -/
def CSV_PREVIEW_LINES : Nat := 10

/-- Constant set `TEXT_FILE_EXTENSIONS` from the source (lower-case), with
`''` added at the end as by `TEXT_FILE_EXTENSIONS.add('')`.  Membership is
what matters; the Python value is a set. -/
def TEXT_FILE_EXTENSIONS : List String :=
  [".txt", ".md", ".markdown", ".rst", ".tex", ".rtf", ".text", ".log",
   ".py", ".pyw", ".java", ".c", ".cpp", ".h", ".hpp", ".cs", ".js", ".mjs", ".cjs", ".ts", ".tsx",
   ".php", ".pl", ".pm", ".rb", ".swift", ".go", ".rs", ".lua", ".scala", ".kt", ".kts", ".dart",
   ".sh", ".bash", ".zsh", ".fish", ".ps1", ".bat", ".cmd",
   ".groovy", ".gvy", ".gy", ".gsh",
   ".r", ".jl", ".pas", ".f", ".f90", ".f95", ".for",
   ".asm", ".s",
   ".vb", ".vbs",
   ".clj", ".cljs", ".cljc", ".edn",
   ".erl", ".hrl",
   ".ex", ".exs",
   ".hs", ".lhs",
   ".lisp", ".lsp", ".scm",
   ".ml", ".mli",
   ".pde",
   ".sol",
   ".tcl",
   ".vala",
   ".html", ".htm", ".xhtml", ".css", ".scss", ".less", ".sass", ".json", ".xml", ".svg",
   ".yaml", ".yml", ".toml", ".ini", ".cfg", ".conf", ".properties",
   ".asp", ".aspx", ".jsp", ".ejs", ".hbs", ".mustache", ".pug", ".jade",
   ".htaccess", ".htpasswd",
   ".csv", ".tsv", ".jsonl", ".ndjson", ".sql", ".graphql", ".gql",
   ".dockerfile", "dockerfile",
   ".gitattributes", ".gitignore", ".gitmodules", ".editorconfig",
   "makefile", "makefile.in", "cmakelists.txt", "meson.build",
   ".pom", ".gradle", ".sbt", ".project", ".classpath", ".build",
   ".csproj", ".vbproj", ".sln", ".suo",
   ".yaml-tml",
   ".org", ".wiki", ".textile", ".adoc", ".asciidoc",
   ".srt", ".sub", ".vtt",
   ".patch", ".diff", ".desktop", ".service", ".rules",
   ".reg",
   ".plantuml", ".puml", ".pu",
   ".dot", ".gv",
   ".pro", ".pri", ".src",
   ""]

/-- Constant `ENCODINGS_TO_TRY_FOR_CONTENT` from the source. -/
def ENCODINGS_TO_TRY_FOR_CONTENT : List String :=
  ["utf-8", "cp1251", "cp1252", "latin-1", "utf-16"]

/-- The string `', '.join(ENCODINGS_TO_TRY_FOR_CONTENT)` interpolated into the
could-not-decode messages of the source. -/
def encodingsJoined : String := "utf-8, cp1251, cp1252, latin-1, utf-16"

/-- An apostrophe (U+0027), used inside some message strings of the source. -/
def apos : String := ⟨[Char.ofNat 39]⟩

/-- Characters stripped by Python's `str.rstrip()` (ASCII whitespace; the
names and file lines involved contain no further Unicode whitespace). -/
def isPySpace (c : Char) : Bool :=
  c = ' ' || c = '\t' || c = '\n' || c = '\r' || c = '\x0b' || c = '\x0c'

/-- Python's `line.rstrip()`: remove trailing whitespace (in particular the
line terminator). -/
def rstrip (s : String) : String :=
  ((s.data.reverse.dropWhile isPySpace).reverse).asString

/-- Python's `str.lower()` on a file extension (the extensions involved are
ASCII, where `Char.toLower` agrees with Python). -/
def lowerStr (s : String) : String :=
  (s.data.map Char.toLower).asString

/-- Python's `str.startswith('.')` on an entry name. -/
def startsWithDot (s : String) : Bool :=
  match s.data with
  | '.' :: _ => true
  | _ => false

/-- Index of the last occurrence of `c`, if any (helper for `splitextExt`). -/
def lastIdxOf (c : Char) : List Char → Option Nat
  | [] => none
  | x :: xs =>
      match lastIdxOf c xs with
      | some k => some (k + 1)
      | none => if x = c then some 0 else none

/-- The extension part of `os.path.splitext(name)` for a bare entry name (no
path separators, as returned by `os.listdir`): the suffix from the last dot,
except that a name whose characters before that dot are all dots (e.g.
`.bashrc`, `..txt`) has no extension. -/
def splitextExt (name : String) : String :=
  match lastIdxOf '.' name.data with
  | none => ""
  | some i =>
      if (name.data.take i).all (fun ch => ch = '.') then ""
      else (name.data.drop i).asString

/-- Outcome of `open(filepath, 'r', encoding=enc, errors='strict')` followed
by line iteration, for one candidate encoding (see the module docstring for
the abstraction). -/
inductive DecodeOutcome where
  | ok (lines : List String)
  | decodeFail
  | ioError (msg : String)
  | otherError (msg : String)

/-- The `source` field of a notebook cell: a list of lines, a single string
(normalised by `splitlines(keepends=True)`), or anything else. -/
inductive CellSource where
  | listSrc (lines : List String)
  | strSrc (s : String)
  | invalidSrc

/-- A notebook cell: its `cell_type` field (`none` when absent) and its
`source` field. -/
structure NBCell where
  cellType : Option String
  source : CellSource

/-- Outcome of `open(filepath, 'r', encoding='utf-8')` + `json.load` for the
notebook strategy.  `parsed cells` is a JSON object whose `cells` key holds a
list; `noCellsList` is a parsed document where `'cells' not in data or not
isinstance(data['cells'], list)`. -/
inductive NotebookOutcome where
  | parsed (cells : List NBCell)
  | noCellsList
  | jsonErr (msg : String)
  | ioErr (msg : String)
  | otherErr (msg : String)

/-- What the filesystem yields when a regular file's bytes are read:
per-encoding strict text decoding, and the notebook (`json.load`) view. -/
structure FileData where
  textRead : String → DecodeOutcome
  notebookRead : NotebookOutcome

/-- Python's `s.splitlines(keepends=True)` restricted to `'\n'` terminators
(the line format of notebook `source` strings); helper recursion on
characters with an accumulator for the current line. -/
def splitlinesAux : List Char → List Char → List (List Char)
  | [], [] => []
  | [], acc => [acc.reverse]
  | c :: cs, acc =>
      if c = '\n' then (c :: acc).reverse :: splitlinesAux cs []
      else splitlinesAux cs (c :: acc)

/-- Python's `s.splitlines(keepends=True)` (for `'\n'`-terminated text). -/
def splitlinesKeepends (s : String) : List String :=
  (splitlinesAux s.data []).map List.asString

/-- Normalisation of a cell's `source` performed at lines 125-127 of the
source: a list is used as is, a string is split into kept-ends lines, and
anything else makes the loop `continue` (modelled as `none`). -/
def sourceLinesOf : CellSource → Option (List String)
  | CellSource.listSrc ls => some ls
  | CellSource.strSrc s => some (splitlinesKeepends s)
  | CellSource.invalidSrc => none

/-- Header line written by `_read_text_file_content_with_encodings` once a
candidate encoding opens (the numeric cap is interpolated; its exact
rendering is immaterial to the claims). -/
def textHeaderLine (basePre enc : String) (maxLines : Nat) : String :=
  basePre ++ "--- File Content (text, encoding: " ++ enc ++ ", up to " ++ toString maxLines ++ " lines) ---"

/-- Footer line of the plain-text strategy. -/
def textFooterLine (basePre : String) : String :=
  basePre ++ "--- File Content End ---"

/-- Marker written when a text file produced no content lines. -/
def textEmptyLine (basePre : String) : String :=
  basePre ++ "[File is empty or content not shown due to 0 line limit]"

/-- Truncation marker of the plain-text and notebook strategies. -/
def truncatedLine (basePre : String) : String :=
  basePre ++ "[...content truncated...]"

/-- The single line written when every candidate encoding failed
(line 99 of the source). -/
def couldNotDecodeLine (basePre : String) : String :=
  basePre ++ "[Could not decode file using tried encodings (" ++ encodingsJoined ++ ") - Content not displayed]"

/-- The `for line_text in f_content` loop of
`_read_text_file_content_with_encodings` (lines 79-86): takes the decoded
lines and the current `lines_written`, returns the written lines, the final
`lines_written`, and the `content_found_and_printed` flag contribution. -/
def textContentLoop (basePre : String) (maxLines : Nat) : List String → Nat → List String × Nat × Bool
  | [], w => ([], w, false)
  | l :: ls, w =>
      if maxLines ≤ w then ([truncatedLine basePre], w, true)
      else
        let r := textContentLoop basePre maxLines ls (w + 1)
        ((basePre ++ rstrip l) :: r.1, r.2.1, true)

/-- The body of a successful `open` in
`_read_text_file_content_with_encodings` (lines 76-90): header, bounded
content, empty-file marker, footer. -/
def textAttemptOk (basePre : String) (maxLines : Nat) (enc : String) (lines : List String) : List String :=
  let r := textContentLoop basePre maxLines lines 0
  textHeaderLine basePre enc maxLines :: r.1
    ++ (if r.2.2 = false ∧ r.2.1 = 0 then [textEmptyLine basePre] else [])
    ++ [textFooterLine basePre]

/-- The `for enc in ENCODINGS_TO_TRY_FOR_CONTENT` loop of
`_read_text_file_content_with_encodings` (lines 73-100).  On
`UnicodeDecodeError` the header has already been written (it is written as
soon as `open` succeeds, before iteration) and the next encoding is tried;
on an I/O or unexpected error an inline message is written and the function
returns `False`; when no encoding is left the could-not-decode line is
written. -/
def textEncodingsLoop (d : FileData) (maxLines : Nat) (basePre : String) : List String → List String × Bool
  | [] => ([couldNotDecodeLine basePre], false)
  | enc :: rest =>
      match d.textRead enc with
      | DecodeOutcome.ok lines => (textAttemptOk basePre maxLines enc lines, true)
      | DecodeOutcome.decodeFail =>
          let r := textEncodingsLoop d maxLines basePre rest
          (textHeaderLine basePre enc maxLines :: r.1, r.2)
      | DecodeOutcome.ioError e =>
          ([basePre ++ "[IOError reading file (tried encoding " ++ enc ++ "): " ++ e ++ "]"], false)
      | DecodeOutcome.otherError e =>
          ([basePre ++ "[Unexpected error reading file (tried encoding " ++ enc ++ "): " ++ e ++ "]"], false)

/-- `_read_text_file_content_with_encodings` (lines 64-100 of the source):
written lines and return value. -/
def readTextFileContentWithEncodings (d : FileData) (maxLines : Nat) (basePre : String) : List String × Bool :=
  textEncodingsLoop d maxLines basePre ENCODINGS_TO_TRY_FOR_CONTENT

/-- Header line of the CSV preview strategy. -/
def csvHeaderLine (basePre enc : String) (maxPreviewLines : Nat) : String :=
  basePre ++ "--- CSV File Content Preview (encoding: " ++ enc ++ ", up to " ++ toString maxPreviewLines ++ " lines) ---"

/-- Footer line of the CSV preview strategy. -/
def csvFooterLine (basePre : String) : String :=
  basePre ++ "--- CSV File Content Preview End ---"

/-- Truncation marker of the CSV preview strategy. -/
def csvTruncatedLine (basePre : String) : String :=
  basePre ++ "[...remaining content truncated...]"

/-- The `for line_text in f_content` loop of `_read_csv_content`
(lines 180-188): like the text loop, but the truncation marker is written
only when `lines_written > 0`. -/
def csvContentLoop (basePre : String) (maxPreviewLines : Nat) : List String → Nat → List String × Nat × Bool
  | [], w => ([], w, false)
  | l :: ls, w =>
      if maxPreviewLines ≤ w then
        ((if 0 < w then [csvTruncatedLine basePre] else []), w, true)
      else
        let r := csvContentLoop basePre maxPreviewLines ls (w + 1)
        ((basePre ++ rstrip l) :: r.1, r.2.1, true)

/-- The `for enc in ENCODINGS_TO_TRY_FOR_CONTENT` loop of `_read_csv_content`
(lines 172-217). -/
def csvEncodingsLoop (d : FileData) (maxPreviewLines : Nat) (basePre : String) : List String → List String × Bool
  | [] =>
      ([basePre ++ "--- CSV File Content Preview ---",
        basePre ++ "[Could not decode CSV file using tried encodings (" ++ encodingsJoined ++ ") - Preview not displayed]",
        csvFooterLine basePre], false)
  | enc :: rest =>
      match d.textRead enc with
      | DecodeOutcome.ok lines =>
          let r := csvContentLoop basePre maxPreviewLines lines 0
          (csvHeaderLine basePre enc maxPreviewLines :: r.1
             ++ (if r.2.2 = false ∧ r.2.1 = 0
                 then [basePre ++ "[File is empty or preview not shown due to 0 line limit]"] else [])
             ++ [csvFooterLine basePre], true)
      | DecodeOutcome.decodeFail =>
          let r := csvEncodingsLoop d maxPreviewLines basePre rest
          (csvHeaderLine basePre enc maxPreviewLines :: r.1, r.2)
      | DecodeOutcome.ioError e =>
          ([basePre ++ "--- CSV File Content Preview (attempted encoding: " ++ enc ++ ") ---",
            basePre ++ "[IOError reading CSV file: " ++ e ++ "]",
            csvFooterLine basePre], false)
      | DecodeOutcome.otherError e =>
          ([basePre ++ "--- CSV File Content Preview (attempted encoding: " ++ enc ++ ") ---",
            basePre ++ "[Unexpected error processing CSV file: " ++ e ++ "]",
            csvFooterLine basePre], false)

/-- `_read_csv_content` (lines 167-217 of the source). -/
def readCsvContent (d : FileData) (maxPreviewLines : Nat) (basePre : String) : List String × Bool :=
  csvEncodingsLoop d maxPreviewLines basePre ENCODINGS_TO_TRY_FOR_CONTENT

/-- Header line of the notebook strategy (line 107 of the source). -/
def ipynbHeaderLine (basePre : String) (maxLines : Nat) : String :=
  basePre ++ "--- Jupyter Notebook Content (markdown & code cells, up to " ++ toString maxLines ++ " lines total) ---"

/-- Footer line of the notebook strategy (written in the `finally` block). -/
def ipynbFooterLine (basePre : String) : String :=
  basePre ++ "--- Jupyter Notebook Content End ---"

/-- The inner `for line in source` loop of `_read_ipynb_content`
(lines 135-139 and 147-151): shared counter `lines_written_total` is
threaded through; the truncation marker itself is not counted. -/
def ipynbCellBody (basePre : String) (maxLines : Nat) : List String → Nat → List String × Nat
  | [], total => ([], total)
  | l :: ls, total =>
      if maxLines ≤ total then ([truncatedLine basePre], total)
      else
        let r := ipynbCellBody basePre maxLines ls (total + 1)
        ((basePre ++ rstrip l) :: r.1, r.2)

/-- The `for i, cell in enumerate(notebook_data['cells'])` loop of
`_read_ipynb_content` (lines 120-152): arguments are the remaining cells,
the enumeration index `i`, `lines_written_total`, and `content_processed`;
the result is the written lines, the final counter, and the final flag.
A cell whose `source` is neither list nor string, or whose type is neither
`markdown` nor `code`, contributes nothing.  A markdown/code cell reached
with the budget not yet exhausted writes its one-line header (counted,
`header.count('\n') == 1`) followed by its bounded source lines. -/
def ipynbCellsLoop (basePre : String) (maxLines : Nat) : List NBCell → Nat → Nat → Bool → List String × Nat × Bool
  | [], _, total, processed => ([], total, processed)
  | cell :: rest, i, total, processed =>
      if maxLines ≤ total then ([], total, processed)
      else
        match sourceLinesOf cell.source with
        | none => ipynbCellsLoop basePre maxLines rest (i + 1) total processed
        | some src =>
            if cell.cellType = some "markdown" then
              let b := ipynbCellBody basePre maxLines src (total + 1)
              let r := ipynbCellsLoop basePre maxLines rest (i + 1) b.2 true
              ((basePre ++ "[Markdown Cell " ++ toString (i + 1) ++ "]") :: b.1 ++ r.1, r.2)
            else if cell.cellType = some "code" then
              let b := ipynbCellBody basePre maxLines src (total + 1)
              let r := ipynbCellsLoop basePre maxLines rest (i + 1) b.2 true
              ((basePre ++ "[Code Cell " ++ toString (i + 1) ++ "]") :: b.1 ++ r.1, r.2)
            else ipynbCellsLoop basePre maxLines rest (i + 1) total processed

/-- `_read_ipynb_content` (lines 103-165 of the source): the strategy header
is written before the `try`, the footer in the `finally`, so both surround
every outcome; the return value is `content_processed`. -/
def readIpynbContent (d : FileData) (maxLines : Nat) (basePre : String) : List String × Bool :=
  match d.notebookRead with
  | NotebookOutcome.parsed cells =>
      let r := ipynbCellsLoop basePre maxLines cells 0 0 false
      (ipynbHeaderLine basePre maxLines :: r.1
         ++ (if r.2.2 = false ∧ r.2.1 = 0
             then [basePre ++ "[No markdown or code cells found, or content not shown due to 0 line limit]"] else [])
         ++ [ipynbFooterLine basePre], r.2.2)
  | NotebookOutcome.noCellsList =>
      ([ipynbHeaderLine basePre maxLines,
        basePre ++ "[Invalid .ipynb format: " ++ apos ++ "cells" ++ apos ++ " array not found]",
        ipynbFooterLine basePre], false)
  | NotebookOutcome.jsonErr e =>
      ([ipynbHeaderLine basePre maxLines,
        basePre ++ "[Error decoding .ipynb JSON: " ++ e ++ "]",
        ipynbFooterLine basePre], false)
  | NotebookOutcome.ioErr e =>
      ([ipynbHeaderLine basePre maxLines,
        basePre ++ "[IOError reading .ipynb file: " ++ e ++ "]",
        ipynbFooterLine basePre], false)
  | NotebookOutcome.otherErr e =>
      ([ipynbHeaderLine basePre maxLines,
        basePre ++ "[Unexpected error processing .ipynb file: " ++ e ++ "]",
        ipynbFooterLine basePre], false)

mutual
/-- A node of the filesystem as the walker observes it (see the module
docstring): `dir` with its listing, a directory whose listing raises
`PermissionError` (`dirDenied`) or `FileNotFoundError` (`dirVanished`), a
regular file with its readable data, or anything that resolves to neither a
directory nor a regular file (`other`). -/
inductive FSNode where
  | dir (entries : FSEntries)
  | dirDenied
  | dirVanished
  | file (data : FileData)
  | other
inductive FSEntries where
  | nil
  | cons (name : String) (node : FSNode) (rest : FSEntries)
end

/-- The names of a listing, in `os.listdir` order. -/
def FSEntries.names : FSEntries → List String
  | FSEntries.nil => []
  | FSEntries.cons n _ rest => n :: rest.names

/-- `os.path.isdir` on a listed entry (follows symlinks; `dirDenied` and
`dirVanished` are directories whose listing will fail). -/
def isDirNode : FSNode → Bool
  | FSNode.dir _ => true
  | FSNode.dirDenied => true
  | FSNode.dirVanished => true
  | _ => false

/-- `os.path.isfile` on a listed entry (follows symlinks). -/
def isFileNode : FSNode → Bool
  | FSNode.file _ => true
  | _ => false

/-- The per-run arguments threaded unchanged through
`_write_folder_tree_recursive`: `output_filename_to_exclude`,
`include_file_content`, and `files_to_skip_content_processing`.  The pair
`current_folder_abs_path_for_check == root_folder_abs_path` of the source is
modelled by the `atRoot` flag passed alongside: entry names contain no path
separators, so the canonicalized path of a visited folder equals the
canonicalized root path exactly at the initial call. -/
structure WalkCfg where
  exclude : Option String
  includeContent : Bool
  skipSet : List String

/-- The filter of lines 245-251 of the source: an entry name is kept unless
it equals `output_filename_to_exclude` while the current folder is the root
folder, or it starts with a dot. -/
def keepEntry (cfg : WalkCfg) (atRoot : Bool) (n : String) : Bool :=
  !(cfg.exclude == some n && atRoot) && !(startsWithDot n)

/-- Per-entry data precomputed for one directory level: the entry's name and
node, and the recursive rendering of the node under each of the two possible
child prefixes (`prefix + "│   "` and `prefix + "    "`).  Only one of the
two is used, according to the entry's final position. -/
structure EntryBlock where
  name : String
  node : FSNode
  subNotLast : List String
  subLast : List String

/-- Insertion into a name-sorted block list (code-point order on
`String.data`, Python's `list.sort()` order for `str`). -/
def insertBlock (b : EntryBlock) : List EntryBlock → List EntryBlock
  | [] => [b]
  | c :: cs => if b.name.data < c.name.data then b :: c :: cs else c :: insertBlock b cs

/-- Sorting of `listed_entries.sort()` (line 234 of the source), acting on
the per-entry blocks; `os.listdir` yields each name once, so sorting the
blocks by name is sorting the name list. -/
def sortBlocks : List EntryBlock → List EntryBlock
  | [] => []
  | b :: bs => insertBlock b (sortBlocks bs)

/-- The content-rendering dispatch of lines 269-301 of the source, executed
under a file's tree line when `include_file_content` is set: skip-set check,
then extension dispatch (`.ipynb` notebook, `.csv` preview, recognized text
extensions, otherwise a notice). -/
def fileContentBlock (cfg : WalkCfg) (pre itemPtr name : String) (d : FileData) : List String :=
  let contentExt := if itemPtr = "├── " then "│   " else "    "
  let fullPre := pre ++ contentExt ++ "┆ "
  if cfg.skipSet.contains name then
    [fullPre ++ "[Content of " ++ name ++ " intentionally not processed for this report]"]
  else
    let fileExt := splitextExt name
    let extLower := lowerStr fileExt
    if extLower = ".ipynb" then
      (readIpynbContent d MAX_FILE_CONTENT_LINES fullPre).1
    else if extLower = ".csv" then
      (readCsvContent d CSV_PREVIEW_LINES fullPre).1
    else if TEXT_FILE_EXTENSIONS.contains extLower then
      (readTextFileContentWithEncodings d MAX_FILE_CONTENT_LINES fullPre).1
    else
      [fullPre ++ "[Non-text file or unrecognized extension (" ++ apos ++ fileExt ++ apos ++ ") - Content not displayed]"]

/-- The body of the `for i, entry_name in enumerate(entries_to_process)` loop
for one entry (lines 255-303 of the source): one tree line classified by
`os.path.isdir` / `os.path.isfile` / otherwise, then for a folder the
recursive listing under the extended prefix, for a file the optional content
block. -/
def renderOneEntry (cfg : WalkCfg) (pre itemPtr : String) (b : EntryBlock) : List String :=
  match b.node with
  | FSNode.dir _ =>
      (pre ++ itemPtr ++ b.name ++ " (folder)") ::
        (if itemPtr = "├── " then b.subNotLast else b.subLast)
  | FSNode.dirDenied =>
      (pre ++ itemPtr ++ b.name ++ " (folder)") ::
        (if itemPtr = "├── " then b.subNotLast else b.subLast)
  | FSNode.dirVanished =>
      (pre ++ itemPtr ++ b.name ++ " (folder)") ::
        (if itemPtr = "├── " then b.subNotLast else b.subLast)
  | FSNode.file d =>
      (pre ++ itemPtr ++ b.name ++ " (file)") ::
        (if cfg.includeContent then fileContentBlock cfg pre itemPtr b.name d else [])
  | FSNode.other =>
      [pre ++ itemPtr ++ b.name ++ " (other)"]

/-- The pointer assignment `pointers = ["├── "] * (len - 1) + ["└── "]`
(line 253) combined with the entry loop: every entry but the last uses the
branch connector, the last uses the last-sibling connector. -/
def renderProcessed (cfg : WalkCfg) (pre : String) : List EntryBlock → List String
  | [] => []
  | [b] => renderOneEntry cfg pre "└── " b
  | b :: rest => renderOneEntry cfg pre "├── " b ++ renderProcessed cfg pre rest

/-- The `entries_to_process` of one directory level, as blocks: sorted by
name, then filtered by `keepEntry` (the source iterates the sorted names and
`continue`s over excluded ones, which is the same list). -/
def processedBlocks (cfg : WalkCfg) (atRoot : Bool) (blocks : List EntryBlock) : List EntryBlock :=
  (sortBlocks blocks).filter (fun b => keepEntry cfg atRoot b.name)

mutual
/-- `_write_folder_tree_recursive` (lines 220-303 of the source), mutually
with the per-listing block computation.  `writeFolderTreeRecursive cfg node
atRoot pre` is the list of lines the call writes for the folder `node` when
the accumulated display prefix is `pre`; a listing that raises
`PermissionError` / `FileNotFoundError` writes its single bracketed line and
returns. -/
def writeFolderTreeRecursive (cfg : WalkCfg) : FSNode → Bool → String → List String
  | FSNode.dir es, atRoot, pre =>
      renderProcessed cfg pre (processedBlocks cfg atRoot (entryBlocksOf cfg pre es))
  | FSNode.dirDenied, _, pre => [pre ++ "├── [Access Denied]"]
  | FSNode.dirVanished, _, pre => [pre ++ "├── [Path not found - unexpected]"]
  | FSNode.file _, _, _ => []
  | FSNode.other, _, _ => []
/-- Per-listing block computation for `writeFolderTreeRecursive`: for each
listed entry, its recursive rendering under the two possible child prefixes
(`extension_for_next_level` is `"│   "` when the entry's pointer is
`"├── "`, else `"    "`); recursive calls are never at the root, so `atRoot`
is `false` for them. -/
def entryBlocksOf (cfg : WalkCfg) (pre : String) : FSEntries → List EntryBlock
  | FSEntries.nil => []
  | FSEntries.cons n node rest =>
      { name := n, node := node,
        subNotLast := writeFolderTreeRecursive cfg node false (pre ++ "│   "),
        subLast := writeFolderTreeRecursive cfg node false (pre ++ "    ") }
        :: entryBlocksOf cfg pre rest
end

/-- `_generate_and_save_single_structure_file` (lines 306-333): the lines of
the produced artifact for a valid root folder whose basename is `rootName`
and whose listing is `rootEntries`: the root header line, then the recursive
walk with initial prefix two spaces, `atRoot` set, and the output filename
excluded. -/
def generateStructureLines (rootName : String) (rootEntries : FSEntries)
    (outputFilename : String) (includeContentFlag : Bool) (skipSet : List String) : List String :=
  (rootName ++ " (folder)") ::
    writeFolderTreeRecursive ⟨some outputFilename, includeContentFlag, skipSet⟩
      (FSNode.dir rootEntries) true "  "

/-- Unfolding of the walker at a listable directory (the `try` of lines
232-234 succeeded): sort, filter, then render with positional pointers. -/
theorem writeFolderTree_dir (cfg : WalkCfg) (es : FSEntries) (atRoot : Bool) (pre : String) :
    writeFolderTreeRecursive cfg (FSNode.dir es) atRoot pre
      = renderProcessed cfg pre (processedBlocks cfg atRoot (entryBlocksOf cfg pre es)) := rfl

/-- Unfolding of the per-listing block computation at a `cons`. -/
theorem entryBlocksOf_cons (cfg : WalkCfg) (pre : String) (n : String) (node : FSNode) (rest : FSEntries) :
    entryBlocksOf cfg pre (FSEntries.cons n node rest)
      = { name := n, node := node,
          subNotLast := writeFolderTreeRecursive cfg node false (pre ++ "│   "),
          subLast := writeFolderTreeRecursive cfg node false (pre ++ "    ") }
          :: entryBlocksOf cfg pre rest := rfl

/-- C8: if listing a folder fails with `PermissionError`, the walker writes
exactly one `[Access Denied]` line at that node's position and returns
without recursing; a vanished path similarly yields one `[Path not found]`
line; and the failure is local to that node: each sibling of a directory
level is rendered by its own `renderOneEntry`, concatenated in order, so
already-enumerated siblings and ancestors continue normally (the per-entry
block of a denied folder is its tree line plus the single error line of the
recursive call). -/
theorem c8_access_denied_local (cfg : WalkCfg) :
    (∀ (atRoot : Bool) (pre : String),
       writeFolderTreeRecursive cfg FSNode.dirDenied atRoot pre = [pre ++ "├── [Access Denied]"])
  ∧ (∀ (atRoot : Bool) (pre : String),
       writeFolderTreeRecursive cfg FSNode.dirVanished atRoot pre = [pre ++ "├── [Path not found - unexpected]"])
  ∧ (∀ (pre : String) (b : EntryBlock) (rest : List EntryBlock),
       renderProcessed cfg pre (b :: rest)
         = renderOneEntry cfg pre (if rest.isEmpty then "└── " else "├── ") b
             ++ renderProcessed cfg pre rest)
  ∧ (∀ (pre n : String) (rest : FSEntries),
       entryBlocksOf cfg pre (FSEntries.cons n FSNode.dirDenied rest)
         = { name := n, node := FSNode.dirDenied,
             subNotLast := [pre ++ "│   " ++ "├── [Access Denied]"],
             subLast := [pre ++ "    " ++ "├── [Access Denied]"] }
             :: entryBlocksOf cfg pre rest) := by
  refine ⟨fun _ _ => rfl, fun _ _ => rfl, fun pre b rest => ?_, fun _ _ _ => rfl⟩
  cases rest with
  | nil => simp [renderProcessed]
  | cons c cs => rfl

/-- C9: entry classification follows what the path resolves to (the model's
`FSNode`, which already reflects `os.path.isdir`/`os.path.isfile` following
symlinks): a directory-resolving entry is labeled `(folder)` and its
recursive listing follows; a regular-file entry is labeled `(file)` with the
content block only when enabled; anything else is labeled `(other)` and its
block is that single line — no content rendering is ever attempted for it,
even when content rendering is enabled. -/
theorem c9_classification (cfg : WalkCfg) (pre itemPtr n : String) (s1 s2 : List String) :
    (∀ es : FSEntries,
       renderOneEntry cfg pre itemPtr ⟨n, FSNode.dir es, s1, s2⟩
         = (pre ++ itemPtr ++ n ++ " (folder)") :: (if itemPtr = "├── " then s1 else s2))
  ∧ renderOneEntry cfg pre itemPtr ⟨n, FSNode.dirDenied, s1, s2⟩
      = (pre ++ itemPtr ++ n ++ " (folder)") :: (if itemPtr = "├── " then s1 else s2)
  ∧ renderOneEntry cfg pre itemPtr ⟨n, FSNode.dirVanished, s1, s2⟩
      = (pre ++ itemPtr ++ n ++ " (folder)") :: (if itemPtr = "├── " then s1 else s2)
  ∧ (∀ d : FileData,
       renderOneEntry cfg pre itemPtr ⟨n, FSNode.file d, s1, s2⟩
         = (pre ++ itemPtr ++ n ++ " (file)") ::
             (if cfg.includeContent then fileContentBlock cfg pre itemPtr n d else []))
  ∧ renderOneEntry cfg pre itemPtr ⟨n, FSNode.other, s1, s2⟩
      = [pre ++ itemPtr ++ n ++ " (other)"]
  ∧ (∀ (node : FSNode) (rest : FSEntries),
       entryBlocksOf cfg pre (FSEntries.cons n node rest)
         = { name := n, node := node,
             subNotLast := writeFolderTreeRecursive cfg node false (pre ++ "│   "),
             subLast := writeFolderTreeRecursive cfg node false (pre ++ "    ") }
             :: entryBlocksOf cfg pre rest) :=
  ⟨fun _ => rfl, rfl, rfl, fun _ => rfl, rfl, fun _ _ => rfl⟩

/-- Stopped cell loop: once `lines_written_total` has reached the budget,
the loop emits nothing more, whatever cells remain. -/
theorem ipynbCellsLoop_stop (basePre : String) (maxLines : Nat) (cells : List NBCell)
    (i total : Nat) (p : Bool) (h : maxLines ≤ total) :
    ipynbCellsLoop basePre maxLines cells i total p = ([], total, p) := by
  cases cells with
  | nil => rfl
  | cons c rest => simp [ipynbCellsLoop, h]

/-- C10: a notebook cell whose type is neither `markdown` nor `code`, or
whose `source` is neither a list nor a string, is skipped silently: it emits
no header and no content, consumes none of the shared line budget, and later
cells keep their original enumeration indices (the remaining loop continues
at index `i + 1` with the counter and flag unchanged). -/
theorem c10_skipped_cells (basePre : String) (maxLines : Nat) (cell : NBCell)
    (rest : List NBCell) (i total : Nat) (p : Bool)
    (h : sourceLinesOf cell.source = none
         ∨ (cell.cellType ≠ some "markdown" ∧ cell.cellType ≠ some "code")) :
    ipynbCellsLoop basePre maxLines (cell :: rest) i total p
      = ipynbCellsLoop basePre maxLines rest (i + 1) total p := by
  by_cases hb : maxLines ≤ total
  · rw [ipynbCellsLoop_stop basePre maxLines _ i total p hb,
        ipynbCellsLoop_stop basePre maxLines rest (i + 1) total p hb]
  · cases h with
    | inl hs => simp [ipynbCellsLoop, hb, hs]
    | inr ht =>
        cases hsrc : sourceLinesOf cell.source with
        | none => simp [ipynbCellsLoop, hb, hsrc]
        | some src => simp [ipynbCellsLoop, hb, hsrc, ht.1, ht.2]

/-- Witness for C10: a cell of type `raw` between two code cells is dropped
with no output and no budget use, and the following cell keeps index 3. -/
theorem c10_skipped_cells_witness :
    ipynbCellsLoop "" 10 [⟨some "raw", CellSource.listSrc ["z\n"]⟩,
                          ⟨some "code", CellSource.listSrc ["b\n"]⟩] 1 2 true
      = ipynbCellsLoop "" 10 [⟨some "code", CellSource.listSrc ["b\n"]⟩] 2 2 true
    ∧ ipynbCellsLoop "" 10 [⟨some "code", CellSource.listSrc ["b\n"]⟩] 2 2 true
      = (["[Code Cell 3]", "b"], 4, true) :=
  ⟨c10_skipped_cells "" 10 ⟨some "raw", CellSource.listSrc ["z\n"]⟩
      [⟨some "code", CellSource.listSrc ["b\n"]⟩] 1 2 true
      (Or.inr (by constructor <;> decide)),
   by decide⟩

/-- C2: the content-rendering dispatch is first-match in this order: skip-set
(by file name, regardless of extension), then the notebook extension
`.ipynb`, then the tabular extension `.csv` with its own cap
`CSV_PREVIEW_LINES`, then the recognized text-extension set (the extension
lower-cased, the empty extension included in the set), otherwise a single
non-text notice. -/
theorem c2_dispatch_order (cfg : WalkCfg) (pre itemPtr name : String) (d : FileData) :
    (name ∈ cfg.skipSet →
       fileContentBlock cfg pre itemPtr name d
         = [pre ++ (if itemPtr = "├── " then "│   " else "    ") ++ "┆ "
              ++ "[Content of " ++ name ++ " intentionally not processed for this report]"])
  ∧ (name ∉ cfg.skipSet →
       lowerStr (splitextExt name) = ".ipynb" →
       fileContentBlock cfg pre itemPtr name d
         = (readIpynbContent d MAX_FILE_CONTENT_LINES
              (pre ++ (if itemPtr = "├── " then "│   " else "    ") ++ "┆ ")).1)
  ∧ (name ∉ cfg.skipSet →
       lowerStr (splitextExt name) = ".csv" →
       fileContentBlock cfg pre itemPtr name d
         = (readCsvContent d CSV_PREVIEW_LINES
              (pre ++ (if itemPtr = "├── " then "│   " else "    ") ++ "┆ ")).1)
  ∧ (name ∉ cfg.skipSet →
       lowerStr (splitextExt name) ≠ ".ipynb" →
       lowerStr (splitextExt name) ≠ ".csv" →
       lowerStr (splitextExt name) ∈ TEXT_FILE_EXTENSIONS →
       fileContentBlock cfg pre itemPtr name d
         = (readTextFileContentWithEncodings d MAX_FILE_CONTENT_LINES
              (pre ++ (if itemPtr = "├── " then "│   " else "    ") ++ "┆ ")).1)
  ∧ (name ∉ cfg.skipSet →
       lowerStr (splitextExt name) ≠ ".ipynb" →
       lowerStr (splitextExt name) ≠ ".csv" →
       lowerStr (splitextExt name) ∉ TEXT_FILE_EXTENSIONS →
       fileContentBlock cfg pre itemPtr name d
         = [pre ++ (if itemPtr = "├── " then "│   " else "    ") ++ "┆ "
              ++ "[Non-text file or unrecognized extension (" ++ apos ++ splitextExt name ++ apos
              ++ ") - Content not displayed]"])
  ∧ "" ∈ TEXT_FILE_EXTENSIONS := by
  refine ⟨fun h1 => ?_, fun h1 h2 => ?_, fun h1 h2 => ?_,
          fun h1 h2 h3 h4 => ?_, fun h1 h2 h3 h4 => ?_, by decide⟩
  · simp [fileContentBlock, h1]
  · simp [fileContentBlock, h1, h2]
  · have h2' : lowerStr (splitextExt name) ≠ ".ipynb" := by
      rw [h2]; decide
    simp [fileContentBlock, h1, h2, h2']
  · simp [fileContentBlock, h1, h2, h3, h4]
  · simp [fileContentBlock, h1, h2, h3, h4]

/-- Witness for C2: a name in the skip-set is shielded even with a notebook
extension; `.CSV` dispatches case-insensitively to the tabular strategy;
`README` (empty extension) goes to the plain-text strategy; `.bin` falls to
the notice. -/
theorem c2_dispatch_order_witness :
    fileContentBlock ⟨none, true, ["nb.ipynb"]⟩ "" "└── " "nb.ipynb" ⟨fun _ => DecodeOutcome.decodeFail, NotebookOutcome.jsonErr "e"⟩
      = ["    ┆ [Content of nb.ipynb intentionally not processed for this report]"]
  ∧ fileContentBlock ⟨none, true, []⟩ "" "└── " "data.CSV" ⟨fun _ => DecodeOutcome.ok ["a\n"], NotebookOutcome.jsonErr "e"⟩
      = (readCsvContent ⟨fun _ => DecodeOutcome.ok ["a\n"], NotebookOutcome.jsonErr "e"⟩ CSV_PREVIEW_LINES "    ┆ ").1
  ∧ fileContentBlock ⟨none, true, []⟩ "" "└── " "README" ⟨fun _ => DecodeOutcome.ok ["a\n"], NotebookOutcome.jsonErr "e"⟩
      = (readTextFileContentWithEncodings ⟨fun _ => DecodeOutcome.ok ["a\n"], NotebookOutcome.jsonErr "e"⟩ MAX_FILE_CONTENT_LINES "    ┆ ").1
  ∧ fileContentBlock ⟨none, true, []⟩ "" "└── " "img.bin" ⟨fun _ => DecodeOutcome.decodeFail, NotebookOutcome.jsonErr "e"⟩
      = ["    ┆ [Non-text file or unrecognized extension (" ++ apos ++ ".bin" ++ apos ++ ") - Content not displayed]"] := by
  refine ⟨?_, ?_, ?_, ?_⟩
  · exact ((c2_dispatch_order ⟨none, true, ["nb.ipynb"]⟩ "" "└── " "nb.ipynb"
      ⟨fun _ => DecodeOutcome.decodeFail, NotebookOutcome.jsonErr "e"⟩).1 (by decide)).trans (by decide)
  · exact ((c2_dispatch_order ⟨none, true, []⟩ "" "└── " "data.CSV"
      ⟨fun _ => DecodeOutcome.ok ["a\n"], NotebookOutcome.jsonErr "e"⟩).2.2.1 (by decide) (by decide)).trans (by decide)
  · exact ((c2_dispatch_order ⟨none, true, []⟩ "" "└── " "README"
      ⟨fun _ => DecodeOutcome.ok ["a\n"], NotebookOutcome.jsonErr "e"⟩).2.2.2.1 (by decide) (by decide) (by decide) (by decide)).trans (by decide)
  · exact ((c2_dispatch_order ⟨none, true, []⟩ "" "└── " "img.bin"
      ⟨fun _ => DecodeOutcome.decodeFail, NotebookOutcome.jsonErr "e"⟩).2.2.2.2.1 (by decide) (by decide) (by decide) (by decide)).trans (by decide)

/-- Helper for C4: when every remaining candidate encoding fails to decode,
the loop leaves one header per abandoned attempt and ends with the single
could-not-decode line, returning `False`. -/
theorem textEncodingsLoop_allFail (d : FileData) (maxLines : Nat) (basePre : String) :
    ∀ encs : List String, (∀ e ∈ encs, d.textRead e = DecodeOutcome.decodeFail) →
      textEncodingsLoop d maxLines basePre encs
        = (encs.map (fun e => textHeaderLine basePre e maxLines) ++ [couldNotDecodeLine basePre], false) := by
  intro encs
  induction encs with
  | nil => intro _; rfl
  | cons e rest ih =>
      intro h
      have he : d.textRead e = DecodeOutcome.decodeFail := h e (List.mem_cons_self e rest)
      have hr := ih (fun x hx => h x (List.mem_cons_of_mem e hx))
      simp [textEncodingsLoop, he, hr]

/-- Helper for C4: the first encoding that strictly decodes the whole file is
the one rendered (headers of the abandoned earlier attempts precede it), and
the loop returns `True`. -/
theorem textEncodingsLoop_firstOk (d : FileData) (maxLines : Nat) (basePre : String) :
    ∀ (failed : List String) (enc : String) (rest : List String) (lines : List String),
      (∀ e ∈ failed, d.textRead e = DecodeOutcome.decodeFail) →
      d.textRead enc = DecodeOutcome.ok lines →
      textEncodingsLoop d maxLines basePre (failed ++ enc :: rest)
        = (failed.map (fun e => textHeaderLine basePre e maxLines)
             ++ textAttemptOk basePre maxLines enc lines, true) := by
  intro failed
  induction failed with
  | nil =>
      intro enc rest lines _ hok
      simp [textEncodingsLoop, hok]
  | cons f fs ih =>
      intro enc rest lines h hok
      have hf : d.textRead f = DecodeOutcome.decodeFail := h f (List.mem_cons_self f fs)
      have hr := ih enc rest lines (fun x hx => h x (List.mem_cons_of_mem f hx)) hok
      simp [textEncodingsLoop, hf, hr]

/-- C4: a file whose bytes fail strict decoding under every candidate
encoding of `ENCODINGS_TO_TRY_FOR_CONTENT` produces exactly the abandoned
attempts' headers followed by one could-not-decode line — no content lines
and no lossy fallback (the loop only ever renders the result of a strict
decode); when an encoding fails it is abandoned and the next is tried, and
the first encoding that decodes the entire file strictly is the one whose
rendered block (header naming it, content, footer) is produced. -/
theorem c4_encoding_fallback (d : FileData) (maxLines : Nat) (basePre : String) :
    ((∀ e ∈ ENCODINGS_TO_TRY_FOR_CONTENT, d.textRead e = DecodeOutcome.decodeFail) →
       readTextFileContentWithEncodings d maxLines basePre
         = (ENCODINGS_TO_TRY_FOR_CONTENT.map (fun e => textHeaderLine basePre e maxLines)
              ++ [couldNotDecodeLine basePre], false))
  ∧ (∀ (failed : List String) (enc : String) (rest : List String) (lines : List String),
       ENCODINGS_TO_TRY_FOR_CONTENT = failed ++ enc :: rest →
       (∀ e ∈ failed, d.textRead e = DecodeOutcome.decodeFail) →
       d.textRead enc = DecodeOutcome.ok lines →
       readTextFileContentWithEncodings d maxLines basePre
         = (failed.map (fun e => textHeaderLine basePre e maxLines)
              ++ textAttemptOk basePre maxLines enc lines, true)) := by
  constructor
  · intro h
    exact textEncodingsLoop_allFail d maxLines basePre ENCODINGS_TO_TRY_FOR_CONTENT h
  · intro failed enc rest lines hsplit hfail hok
    unfold readTextFileContentWithEncodings
    rw [hsplit]
    exact textEncodingsLoop_firstOk d maxLines basePre failed enc rest lines hfail hok

/-- Witness for C4: a file failing all five encodings yields the five headers
plus the single could-not-decode line; a file failing `utf-8` but strictly
decodable as `cp1251` is rendered from the `cp1251` decode. -/
theorem c4_encoding_fallback_witness :
    readTextFileContentWithEncodings ⟨fun _ => DecodeOutcome.decodeFail, NotebookOutcome.jsonErr "e"⟩ 7 ""
      = (ENCODINGS_TO_TRY_FOR_CONTENT.map (fun e => textHeaderLine "" e 7)
           ++ [couldNotDecodeLine ""], false)
  ∧ readTextFileContentWithEncodings
      ⟨fun enc => if enc = "cp1251" then DecodeOutcome.ok ["привет\n"] else DecodeOutcome.decodeFail,
       NotebookOutcome.jsonErr "e"⟩ 7 ""
      = (["utf-8"].map (fun e => textHeaderLine "" e 7)
           ++ textAttemptOk "" 7 "cp1251" ["привет\n"], true) :=
  ⟨(c4_encoding_fallback ⟨fun _ => DecodeOutcome.decodeFail, NotebookOutcome.jsonErr "e"⟩ 7 "").1
     (fun e _ => rfl),
   (c4_encoding_fallback
      ⟨fun enc => if enc = "cp1251" then DecodeOutcome.ok ["привет\n"] else DecodeOutcome.decodeFail,
       NotebookOutcome.jsonErr "e"⟩ 7 "").2
     ["utf-8"] "cp1251" ["cp1252", "latin-1", "utf-16"] ["привет\n"] rfl
     (by intro e he; simp at he; rw [he]; rfl) rfl⟩

/-- Helper: the plain-text content loop writes every line when the count fits
under the cap, with no truncation marker. -/
theorem textContentLoop_fits (basePre : String) (maxLines : Nat) :
    ∀ (lines : List String) (w : Nat), w + lines.length ≤ maxLines →
      textContentLoop basePre maxLines lines w
        = (lines.map (fun l => basePre ++ rstrip l), w + lines.length, !lines.isEmpty) := by
  intro lines
  induction lines with
  | nil => intro w _; simp [textContentLoop]
  | cons l ls ih =>
      intro w h
      have hlt : ¬ maxLines ≤ w := by simp at h ⊢; omega
      have hr := ih (w + 1) (by simp at h ⊢; omega)
      simp [textContentLoop, hlt, hr]
      omega

/-- Helper: the CSV preview loop stops at the preview cap: it writes exactly
the first `maxPreviewLines` rows of a longer file, then the preview
truncation marker. -/
theorem csvContentLoop_over (basePre : String) (maxPreviewLines : Nat) :
    ∀ (lines : List String) (w : Nat), w ≤ maxPreviewLines →
      maxPreviewLines < w + lines.length →
      csvContentLoop basePre maxPreviewLines lines w
        = ((lines.take (maxPreviewLines - w)).map (fun l => basePre ++ rstrip l)
             ++ (if 0 < maxPreviewLines then [csvTruncatedLine basePre] else []),
           maxPreviewLines, true) := by
  intro lines
  induction lines with
  | nil => intro w h1 h2; simp at h2; omega
  | cons l ls ih =>
      intro w h1 h2
      by_cases hw : maxPreviewLines ≤ w
      · have hweq : w = maxPreviewLines := le_antisymm h1 hw
        subst hweq
        simp [csvContentLoop]
      · have hr := ih (w + 1) (by omega) (by simp at h2 ⊢; omega)
        have htake : (l :: ls).take (maxPreviewLines - w)
            = l :: ls.take (maxPreviewLines - (w + 1)) := by
          have : maxPreviewLines - w = (maxPreviewLines - (w + 1)) + 1 := by omega
          simp [this]
        simp [csvContentLoop, hw, hr, htake]

/-- C7: a tabular file with more rows than `CSV_PREVIEW_LINES` yields exactly
`CSV_PREVIEW_LINES` content lines followed by one truncation marker before
the footer; this cap is strictly smaller than the independent general cap
`MAX_FILE_CONTENT_LINES`, under which the plain-text strategy would render
every row of the same file without truncation. -/
theorem c7_csv_preview_cap (d : FileData) (basePre : String) (rows : List String)
    (h1 : d.textRead "utf-8" = DecodeOutcome.ok rows)
    (h2 : CSV_PREVIEW_LINES < rows.length)
    (h3 : rows.length ≤ MAX_FILE_CONTENT_LINES) :
    (readCsvContent d CSV_PREVIEW_LINES basePre).1
      = csvHeaderLine basePre "utf-8" CSV_PREVIEW_LINES
          :: ((rows.take CSV_PREVIEW_LINES).map (fun l => basePre ++ rstrip l)
              ++ [csvTruncatedLine basePre, csvFooterLine basePre])
  ∧ ((rows.take CSV_PREVIEW_LINES).map (fun l => basePre ++ rstrip l)).length = CSV_PREVIEW_LINES
  ∧ CSV_PREVIEW_LINES < MAX_FILE_CONTENT_LINES
  ∧ (readTextFileContentWithEncodings d MAX_FILE_CONTENT_LINES basePre).1
      = textHeaderLine basePre "utf-8" MAX_FILE_CONTENT_LINES
          :: (rows.map (fun l => basePre ++ rstrip l) ++ [textFooterLine basePre]) := by
  have hne : rows ≠ [] := by
    intro h
    rw [h] at h2
    exact absurd h2 (by decide)
  have hie : rows.isEmpty = false := by
    cases rows with
    | nil => exact absurd rfl hne
    | cons a as => rfl
  refine ⟨?_, ?_, by decide, ?_⟩
  · have hover := csvContentLoop_over basePre CSV_PREVIEW_LINES rows 0 (by omega)
      (by simpa using h2)
    simp only [CSV_PREVIEW_LINES] at hover
    simp at hover
    simp [readCsvContent, ENCODINGS_TO_TRY_FOR_CONTENT, csvEncodingsLoop, h1, hover,
          CSV_PREVIEW_LINES]
  · simp
    omega
  · have hfits := textContentLoop_fits basePre MAX_FILE_CONTENT_LINES rows 0 (by simpa using h3)
    simp [readTextFileContentWithEncodings, ENCODINGS_TO_TRY_FOR_CONTENT, textEncodingsLoop,
          h1, textAttemptOk, hfits, hie]

/-- Witness for C7: eleven rows under the CSV preview cap of ten. -/
theorem c7_csv_preview_cap_witness :
    (readCsvContent ⟨fun _ => DecodeOutcome.ok
        ["r1\n","r2\n","r3\n","r4\n","r5\n","r6\n","r7\n","r8\n","r9\n","r10\n","r11\n"],
        NotebookOutcome.jsonErr "e"⟩ CSV_PREVIEW_LINES "").1
      = csvHeaderLine "" "utf-8" CSV_PREVIEW_LINES
          :: ((["r1\n","r2\n","r3\n","r4\n","r5\n","r6\n","r7\n","r8\n","r9\n","r10\n","r11\n"].take CSV_PREVIEW_LINES).map (fun l => "" ++ rstrip l)
              ++ [csvTruncatedLine "", csvFooterLine ""]) :=
  (c7_csv_preview_cap ⟨fun _ => DecodeOutcome.ok
      ["r1\n","r2\n","r3\n","r4\n","r5\n","r6\n","r7\n","r8\n","r9\n","r10\n","r11\n"],
      NotebookOutcome.jsonErr "e"⟩ ""
      ["r1\n","r2\n","r3\n","r4\n","r5\n","r6\n","r7\n","r8\n","r9\n","r10\n","r11\n"]
      rfl (by decide) (by decide)).1

/-- Helper: a notebook cell body whose lines fit in the remaining budget is
written in full, advancing the shared counter, with no marker. -/
theorem ipynbCellBody_fits (basePre : String) (maxLines : Nat) :
    ∀ (src : List String) (total : Nat), total + src.length ≤ maxLines →
      ipynbCellBody basePre maxLines src total
        = (src.map (fun l => basePre ++ rstrip l), total + src.length) := by
  intro src
  induction src with
  | nil => intro total _; simp [ipynbCellBody]
  | cons l ls ih =>
      intro total h
      have hlt : ¬ maxLines ≤ total := by simp at h ⊢; omega
      have hr := ih (total + 1) (by simp at h ⊢; omega)
      simp [ipynbCellBody, hlt, hr]
      omega

/-- Helper: a notebook cell body that overruns the remaining budget is cut
after exhausting it, and the truncation marker is written. -/
theorem ipynbCellBody_over (basePre : String) (maxLines : Nat) :
    ∀ (src : List String) (total : Nat), total ≤ maxLines →
      maxLines < total + src.length →
      ipynbCellBody basePre maxLines src total
        = ((src.take (maxLines - total)).map (fun l => basePre ++ rstrip l)
             ++ [truncatedLine basePre], maxLines) := by
  intro src
  induction src with
  | nil => intro total h1 h2; simp at h2; omega
  | cons l ls ih =>
      intro total h1 h2
      by_cases hw : maxLines ≤ total
      · have : total = maxLines := le_antisymm h1 hw
        subst this
        simp [ipynbCellBody]
      · have hr := ih (total + 1) (by omega) (by simp at h2 ⊢; omega)
        have htake : (l :: ls).take (maxLines - total)
            = l :: ls.take (maxLines - (total + 1)) := by
          have : maxLines - total = (maxLines - (total + 1)) + 1 := by omega
          simp [this]
        simp [ipynbCellBody, hw, hr, htake]

/-- C5 counterexample: with a budget of 2 shared lines, a notebook holding a
code cell (header + one line exhausts the budget exactly) followed by a
markdown cell emits the first cell and then stops silently: the second cell
is dropped and NO truncation marker appears, contrary to the claim that the
cut is always marked. -/
theorem c5_counterexample :
    (readIpynbContent ⟨fun _ => DecodeOutcome.decodeFail,
        NotebookOutcome.parsed [⟨some "code", CellSource.listSrc ["x\n"]⟩,
                                ⟨some "markdown", CellSource.listSrc ["y\n"]⟩]⟩ 2 "").1
      = [ipynbHeaderLine "" 2, "[Code Cell 1]", "x", ipynbFooterLine ""]
  ∧ truncatedLine "" ∉ [ipynbHeaderLine "" 2, "[Code Cell 1]", "x", ipynbFooterLine ""] := by
  constructor
  · rfl
  · decide

/-- C5 (amended): the notebook strategy emits, per markdown/code cell in
document order, a one-line typed cell-index header followed by the cell's
source lines, counting every emitted line including headers against one
budget shared across the whole file, and emits nothing further once the
budget is exhausted; the truncation marker appears when the budget runs out
in the middle of a cell's source lines, but a budget exhausted exactly at a
cell boundary drops the remaining cells silently. -/
theorem c5_notebook_shared_budget (basePre : String) (maxLines : Nat) :
    (∀ (cells : List NBCell) (i total : Nat) (p : Bool), maxLines ≤ total →
       ipynbCellsLoop basePre maxLines cells i total p = ([], total, p))
  ∧ (∀ (cell : NBCell) (rest : List NBCell) (i total : Nat) (p : Bool) (src : List String),
       total < maxLines →
       sourceLinesOf cell.source = some src →
       cell.cellType = some "markdown" →
       (total + 1) + src.length ≤ maxLines →
       ipynbCellsLoop basePre maxLines (cell :: rest) i total p
         = ((basePre ++ "[Markdown Cell " ++ toString (i + 1) ++ "]")
              :: (src.map (fun l => basePre ++ rstrip l)
                  ++ (ipynbCellsLoop basePre maxLines rest (i + 1) ((total + 1) + src.length) true).1),
            (ipynbCellsLoop basePre maxLines rest (i + 1) ((total + 1) + src.length) true).2))
  ∧ (∀ (cell : NBCell) (rest : List NBCell) (i total : Nat) (p : Bool) (src : List String),
       total < maxLines →
       sourceLinesOf cell.source = some src →
       cell.cellType = some "code" →
       (total + 1) + src.length ≤ maxLines →
       ipynbCellsLoop basePre maxLines (cell :: rest) i total p
         = ((basePre ++ "[Code Cell " ++ toString (i + 1) ++ "]")
              :: (src.map (fun l => basePre ++ rstrip l)
                  ++ (ipynbCellsLoop basePre maxLines rest (i + 1) ((total + 1) + src.length) true).1),
            (ipynbCellsLoop basePre maxLines rest (i + 1) ((total + 1) + src.length) true).2))
  ∧ (∀ (cell : NBCell) (rest : List NBCell) (i total : Nat) (p : Bool) (src : List String),
       total < maxLines →
       sourceLinesOf cell.source = some src →
       cell.cellType = some "markdown" →
       maxLines < (total + 1) + src.length →
       ipynbCellsLoop basePre maxLines (cell :: rest) i total p
         = ((basePre ++ "[Markdown Cell " ++ toString (i + 1) ++ "]")
              :: ((src.take (maxLines - (total + 1))).map (fun l => basePre ++ rstrip l)
                  ++ [truncatedLine basePre]),
            maxLines, true))
  ∧ (∀ (cell : NBCell) (rest : List NBCell) (i total : Nat) (p : Bool) (src : List String),
       total < maxLines →
       sourceLinesOf cell.source = some src →
       cell.cellType = some "code" →
       maxLines < (total + 1) + src.length →
       ipynbCellsLoop basePre maxLines (cell :: rest) i total p
         = ((basePre ++ "[Code Cell " ++ toString (i + 1) ++ "]")
              :: ((src.take (maxLines - (total + 1))).map (fun l => basePre ++ rstrip l)
                  ++ [truncatedLine basePre]),
            maxLines, true)) := by
  refine ⟨fun cells i total p h => ipynbCellsLoop_stop basePre maxLines cells i total p h,
          fun cell rest i total p src h1 h2 h3 h4 => ?_,
          fun cell rest i total p src h1 h2 h3 h4 => ?_,
          fun cell rest i total p src h1 h2 h3 h4 => ?_,
          fun cell rest i total p src h1 h2 h3 h4 => ?_⟩
  · have hb := ipynbCellBody_fits basePre maxLines src (total + 1) h4
    simp [ipynbCellsLoop, not_le.2 h1, h2, h3, hb]
  · have hb := ipynbCellBody_fits basePre maxLines src (total + 1) h4
    simp [ipynbCellsLoop, not_le.2 h1, h2, h3, hb]
  · have hb := ipynbCellBody_over basePre maxLines src (total + 1) (by omega) h4
    have hstop := ipynbCellsLoop_stop basePre maxLines rest (i + 1) maxLines true le_rfl
    simp [ipynbCellsLoop, not_le.2 h1, h2, h3, hb, hstop]
  · have hb := ipynbCellBody_over basePre maxLines src (total + 1) (by omega) h4
    have hstop := ipynbCellsLoop_stop basePre maxLines rest (i + 1) maxLines true le_rfl
    simp [ipynbCellsLoop, not_le.2 h1, h2, h3, hb, hstop]

/-- Witness for C5 (amended): a two-cell notebook under a budget of 9 lines:
the markdown cell (header plus two lines) precedes the code cell, whose
headers keep document order and whose lines all fit. -/
theorem c5_notebook_shared_budget_witness :
    ipynbCellsLoop "" 9 [⟨some "markdown", CellSource.listSrc ["m1\n", "m2\n"]⟩,
                         ⟨some "code", CellSource.listSrc ["c1\n"]⟩] 0 0 false
      = (["[Markdown Cell 1]", "m1", "m2", "[Code Cell 2]", "c1"], 5, true)
  ∧ ipynbCellsLoop "" 3 [⟨some "code", CellSource.listSrc ["a\n", "b\n", "c\n"]⟩,
                         ⟨some "markdown", CellSource.listSrc ["d\n"]⟩] 0 0 false
      = (["[Code Cell 1]", "a", "b", truncatedLine ""], 3, true) := by
  constructor
  · have h := (c5_notebook_shared_budget "" 9).2.1
      ⟨some "markdown", CellSource.listSrc ["m1\n", "m2\n"]⟩
      [⟨some "code", CellSource.listSrc ["c1\n"]⟩] 0 0 false ["m1\n", "m2\n"]
      (by decide) rfl rfl (by decide)
    rw [h]
    decide
  · have h := (c5_notebook_shared_budget "" 3).2.2.2.2
      ⟨some "code", CellSource.listSrc ["a\n", "b\n", "c\n"]⟩
      [⟨some "markdown", CellSource.listSrc ["d\n"]⟩] 0 0 false ["a\n", "b\n", "c\n"]
      (by decide) rfl rfl (by decide)
    rw [h]
    decide

/-- Display prefix determined by the ancestor chain, one glyph group per
ancestor level: plain padding below a last sibling, a continuation bar below
a non-last sibling (spec-side notion for C6; `flags` lists, outermost first,
whether each ancestor was the last of its sibling group). -/
def prefixOfFlags : List Bool → String
  | [] => ""
  | isLast :: rest => (if isLast then "    " else "│   ") ++ prefixOfFlags rest

/-- Appending one level to the ancestor chain extends the prefix by one glyph
group on the right. -/
theorem prefixOfFlags_append (flags : List Bool) (b : Bool) :
    prefixOfFlags (flags ++ [b])
      = prefixOfFlags flags ++ (if b then "    " else "│   ") := by
  induction flags with
  | nil => simp [prefixOfFlags]
  | cons x xs ih => simp [prefixOfFlags, ih, String.append_assoc]

/-- Each glyph group is four characters, so the prefix length is four times
the nesting depth. -/
theorem prefixOfFlags_length (flags : List Bool) :
    (prefixOfFlags flags).length = 4 * flags.length := by
  induction flags with
  | nil => rfl
  | cons x xs ih =>
      have h1 : ("│   " : String).length = 4 := by decide
      have h2 : ("    " : String).length = 4 := by decide
      cases x <;> simp [prefixOfFlags, String.length_append, ih, h1, h2] <;> omega

mutual
/-- Spec-side rendering for C6: same listing, ordering, filtering and
per-entry rendering as the walker, but the display prefix is maintained as
the explicit ancestor chain `flags` (depth and last-sibling positions), and
a child's chain is its parent's chain extended by whether its folder was the
last sibling. -/
def treeLinesSpec (cfg : WalkCfg) : FSNode → Bool → List Bool → List String
  | FSNode.dir es, atRoot, flags =>
      renderProcessed cfg (prefixOfFlags flags)
        (processedBlocks cfg atRoot (specChildBlocks cfg flags es))
  | FSNode.dirDenied, _, flags => [prefixOfFlags flags ++ "├── [Access Denied]"]
  | FSNode.dirVanished, _, flags => [prefixOfFlags flags ++ "├── [Path not found - unexpected]"]
  | FSNode.file _, _, _ => []
  | FSNode.other, _, _ => []
/-- Per-listing blocks of `treeLinesSpec`: the sub-rendering under the branch
connector continues the chain with `false` (not last), the one under the
last connector with `true`. -/
def specChildBlocks (cfg : WalkCfg) (flags : List Bool) : FSEntries → List EntryBlock
  | FSEntries.nil => []
  | FSEntries.cons n node rest =>
      { name := n, node := node,
        subNotLast := treeLinesSpec cfg node false (flags ++ [false]),
        subLast := treeLinesSpec cfg node false (flags ++ [true]) }
        :: specChildBlocks cfg flags rest
end

mutual
/-- The walker invoked with the prefix of an ancestor chain renders exactly
the chain-indexed spec: its prefixes mirror depth and last-sibling
structure. -/
theorem walk_eq_treeLinesSpec (cfg : WalkCfg) :
    ∀ (n : FSNode) (atRoot : Bool) (flags : List Bool),
      writeFolderTreeRecursive cfg n atRoot (prefixOfFlags flags)
        = treeLinesSpec cfg n atRoot flags
  | FSNode.dir es, atRoot, flags => by
      rw [writeFolderTree_dir]
      rw [blocks_eq_specChildBlocks cfg es flags]
      rfl
  | FSNode.dirDenied, _, _ => rfl
  | FSNode.dirVanished, _, _ => rfl
  | FSNode.file _, _, _ => rfl
  | FSNode.other, _, _ => rfl
/-- Block-level part of `walk_eq_treeLinesSpec`. -/
theorem blocks_eq_specChildBlocks (cfg : WalkCfg) :
    ∀ (es : FSEntries) (flags : List Bool),
      entryBlocksOf cfg (prefixOfFlags flags) es = specChildBlocks cfg flags es
  | FSEntries.nil, _ => rfl
  | FSEntries.cons n node rest, flags => by
      rw [entryBlocksOf_cons]
      have e1 : prefixOfFlags flags ++ "│   " = prefixOfFlags (flags ++ [false]) := by
        rw [prefixOfFlags_append]; rfl
      have e2 : prefixOfFlags flags ++ "    " = prefixOfFlags (flags ++ [true]) := by
        rw [prefixOfFlags_append]; rfl
      rw [e1, e2]
      rw [walk_eq_treeLinesSpec cfg node false (flags ++ [false])]
      rw [walk_eq_treeLinesSpec cfg node false (flags ++ [true])]
      rw [blocks_eq_specChildBlocks cfg rest flags]
      rfl
end

/-- C6: for every line of the walker the leading prefix is exactly one
four-character glyph group per nesting level (so the glyph-group count
equals the entry's depth); the walker coincides with the chain-indexed spec
`treeLinesSpec`, in which the connector at the deepest level is `"└── "`
exactly for the final sorted sibling (`renderProcessed` gives the last block
the last connector, every other one `"├── "`) and a folder's children
continue with `"│   "` when the folder was not last and with plain `"    "`
padding when it was. -/
theorem c6_prefix_mirrors_depth (cfg : WalkCfg) (n : FSNode) (atRoot : Bool) (flags : List Bool) :
    writeFolderTreeRecursive cfg n atRoot (prefixOfFlags flags)
      = treeLinesSpec cfg n atRoot flags
  ∧ (prefixOfFlags flags).length = 4 * flags.length
  ∧ ("│   " : String).length = 4 ∧ ("    " : String).length = 4
  ∧ ("├── " : String).length = 4 ∧ ("└── " : String).length = 4 :=
  ⟨walk_eq_treeLinesSpec cfg n atRoot flags, prefixOfFlags_length flags,
   by decide, by decide, by decide, by decide⟩

/-- Membership in an insertion step. -/
theorem mem_insertBlock (a : EntryBlock) :
    ∀ (l : List EntryBlock) (b : EntryBlock), b ∈ insertBlock a l ↔ b = a ∨ b ∈ l := by
  intro l
  induction l with
  | nil => intro b; simp [insertBlock]
  | cons c cs ih =>
      intro b
      by_cases h : a.name.data < c.name.data
      · simp [insertBlock, h]
      · simp [insertBlock, h, ih]
        tauto

/-- Sorting permutes the blocks: membership is preserved. -/
theorem mem_sortBlocks : ∀ (l : List EntryBlock) (b : EntryBlock), b ∈ sortBlocks l ↔ b ∈ l := by
  intro l
  induction l with
  | nil => intro b; simp [sortBlocks]
  | cons c cs ih =>
      intro b
      simp [sortBlocks, mem_insertBlock, ih]

/-- Insertion preserves sortedness by name (code-point order). -/
theorem insertBlock_pairwise (a : EntryBlock) :
    ∀ l : List EntryBlock, l.Pairwise (fun x y => x.name.data ≤ y.name.data) →
      (insertBlock a l).Pairwise (fun x y => x.name.data ≤ y.name.data) := by
  intro l
  induction l with
  | nil => intro _; simp [insertBlock]
  | cons c cs ih =>
      intro h
      rw [List.pairwise_cons] at h
      by_cases hlt : a.name.data < c.name.data
      · rw [insertBlock, if_pos hlt, List.pairwise_cons]
        refine ⟨?_, List.pairwise_cons.2 h⟩
        intro b hb
        rcases List.mem_cons.1 hb with hb | hb
        · rw [hb]; exact le_of_lt hlt
        · exact le_of_lt (lt_of_lt_of_le hlt (h.1 b hb))
      · rw [insertBlock, if_neg hlt, List.pairwise_cons]
        refine ⟨?_, ih h.2⟩
        intro b hb
        rcases (mem_insertBlock a cs b).1 hb with hb | hb
        · rw [hb]; exact le_of_not_lt hlt
        · exact h.1 b hb

/-- The walker's per-listing sort is sorted by name in code-point order. -/
theorem sortBlocks_pairwise :
    ∀ l : List EntryBlock, (sortBlocks l).Pairwise (fun x y => x.name.data ≤ y.name.data) := by
  intro l
  induction l with
  | nil => simp [sortBlocks]
  | cons c cs ih => exact insertBlock_pairwise c (sortBlocks cs) ih

/-- The per-listing blocks carry exactly the listing's names, in listing
order. -/
theorem entryBlocksOf_map_name (cfg : WalkCfg) (pre : String) :
    ∀ es : FSEntries, (entryBlocksOf cfg pre es).map EntryBlock.name = es.names
  | FSEntries.nil => rfl
  | FSEntries.cons n node rest => by
      rw [entryBlocksOf_cons]
      simp [FSEntries.names, entryBlocksOf_map_name cfg pre rest]

/-- The keep-filter of lines 245-251, in propositional form. -/
theorem keepEntry_eq_true_iff (cfg : WalkCfg) (atRoot : Bool) (n : String) :
    keepEntry cfg atRoot n = true
      ↔ (startsWithDot n = false ∧ ¬ (atRoot = true ∧ cfg.exclude = some n)) := by
  simp [keepEntry]
  cases atRoot <;> cases hdot : startsWithDot n <;> simp

/-- Classification suffix printed for an entry, as decided by the
`os.path.isdir` / `os.path.isfile` / else cascade. -/
def classTag (node : FSNode) : String :=
  if isDirNode node then " (folder)" else if isFileNode node then " (file)" else " (other)"

/-- C1 counterexample: a root listing holding `.hidden` and `a.txt`, with
`out.txt` the designated self-output name: `.hidden` differs from the
self-output name yet is omitted, so the excluded self-output name is NOT the
only entry a listing can omit. -/
theorem c1_counterexample :
    writeFolderTreeRecursive ⟨some "out.txt", false, []⟩
        (FSNode.dir (FSEntries.cons ".hidden"
          (FSNode.file ⟨fun _ => DecodeOutcome.decodeFail, NotebookOutcome.jsonErr "e"⟩)
          (FSEntries.cons "a.txt"
            (FSNode.file ⟨fun _ => DecodeOutcome.decodeFail, NotebookOutcome.jsonErr "e"⟩)
            FSEntries.nil))) true ""
      = ["└── a.txt (file)"]
  ∧ ".hidden" ∈ (FSEntries.cons ".hidden"
      (FSNode.file ⟨fun _ => DecodeOutcome.decodeFail, NotebookOutcome.jsonErr "e"⟩)
      (FSEntries.cons "a.txt"
        (FSNode.file ⟨fun _ => DecodeOutcome.decodeFail, NotebookOutcome.jsonErr "e"⟩)
        FSEntries.nil)).names
  ∧ (".hidden" : String) ≠ "out.txt" := by
  refine ⟨rfl, ?_, ?_⟩ <;> decide

/-- C1 (amended): for every directory the walker reaches, the lines written
are the concatenation, over the sorted-by-name kept entries, of exactly one
`<name> (folder|file|other)` line (head of `renderOneEntry`, classification
as the filesystem resolves the entry) followed by that entry's sub-block;
the kept names are exactly the listing's names minus those starting with a
dot and minus the designated self-output name when the directory is the root
(by canonicalized path) — so an identically named file below the root is
still listed; and the kept names appear in sorted (code-point) order. -/
theorem c1_listing_per_directory (cfg : WalkCfg) (es : FSEntries) (atRoot : Bool) (pre : String) :
    writeFolderTreeRecursive cfg (FSNode.dir es) atRoot pre
      = renderProcessed cfg pre (processedBlocks cfg atRoot (entryBlocksOf cfg pre es))
  ∧ (∀ nm : String,
       nm ∈ (processedBlocks cfg atRoot (entryBlocksOf cfg pre es)).map EntryBlock.name
         ↔ (nm ∈ es.names ∧ startsWithDot nm = false
             ∧ ¬ (atRoot = true ∧ cfg.exclude = some nm)))
  ∧ ((processedBlocks cfg atRoot (entryBlocksOf cfg pre es)).map EntryBlock.name).Pairwise
       (fun x y => x.data ≤ y.data)
  ∧ (∀ (itemPtr : String) (b : EntryBlock),
       (renderOneEntry cfg pre itemPtr b).head?
         = some (pre ++ itemPtr ++ b.name ++ classTag b.node)) := by
  refine ⟨rfl, ?_, ?_, ?_⟩
  · intro nm
    constructor
    · intro h
      rcases List.mem_map.1 h with ⟨b, hb, hbn⟩
      rcases List.mem_filter.1 hb with ⟨hbs, hkeep⟩
      have hbl := (mem_sortBlocks _ b).1 hbs
      have hnm : nm ∈ (entryBlocksOf cfg pre es).map EntryBlock.name :=
        List.mem_map.2 ⟨b, hbl, hbn⟩
      rw [entryBlocksOf_map_name] at hnm
      rw [hbn] at hkeep
      rcases (keepEntry_eq_true_iff cfg atRoot nm).1 hkeep with ⟨h1, h2⟩
      exact ⟨hnm, h1, h2⟩
    · intro ⟨hmem, h1, h2⟩
      rw [← entryBlocksOf_map_name cfg pre] at hmem
      rcases List.mem_map.1 hmem with ⟨b, hb, hbn⟩
      refine List.mem_map.2 ⟨b, ?_, hbn⟩
      refine List.mem_filter.2 ⟨(mem_sortBlocks _ b).2 hb, ?_⟩
      rw [hbn]
      exact (keepEntry_eq_true_iff cfg atRoot nm).2 ⟨h1, h2⟩
  · have hs := sortBlocks_pairwise (entryBlocksOf cfg pre es)
    have hf : (processedBlocks cfg atRoot (entryBlocksOf cfg pre es)).Pairwise
        (fun x y => x.name.data ≤ y.name.data) := List.Pairwise.filter _ hs
    exact List.pairwise_map.2 hf
  · intro itemPtr b
    cases hnode : b.node <;> simp [renderOneEntry, hnode, classTag, isDirNode, isFileNode]

mutual
/-- Spec-side definition for C3 (amended): the filesystem with every
dot-prefixed entry removed, at every level. -/
def pruneHidden : FSNode → FSNode
  | FSNode.dir es => FSNode.dir (pruneHiddenEntries es)
  | FSNode.dirDenied => FSNode.dirDenied
  | FSNode.dirVanished => FSNode.dirVanished
  | FSNode.file d => FSNode.file d
  | FSNode.other => FSNode.other
/-- Listing part of `pruneHidden`. -/
def pruneHiddenEntries : FSEntries → FSEntries
  | FSEntries.nil => FSEntries.nil
  | FSEntries.cons n node rest =>
      if startsWithDot n then pruneHiddenEntries rest
      else FSEntries.cons n (pruneHidden node) (pruneHiddenEntries rest)
end

/-- Pruning of one per-entry block: the node pruned, everything else kept. -/
def pruneBlockMap (b : EntryBlock) : EntryBlock :=
  { b with node := pruneHidden b.node }

/-- Inserting an element smaller than every element goes to the front. -/
theorem insertBlock_front (a : EntryBlock) :
    ∀ l : List EntryBlock, (∀ x ∈ l, a.name.data < x.name.data) →
      insertBlock a l = a :: l := by
  intro l h
  cases l with
  | nil => rfl
  | cons c cs => rw [insertBlock, if_pos (h c (List.mem_cons_self c cs))]

/-- Filtering by a name predicate commutes past an insertion into a sorted
list. -/
theorem insertBlock_filter (p : String → Bool) (a : EntryBlock) :
    ∀ l : List EntryBlock, l.Pairwise (fun x y => x.name.data ≤ y.name.data) →
      (insertBlock a l).filter (fun b => p b.name)
        = if p a.name then insertBlock a (l.filter (fun b => p b.name))
          else l.filter (fun b => p b.name) := by
  intro l
  induction l with
  | nil =>
      intro _
      by_cases hpa : p a.name <;> simp [insertBlock, hpa]
  | cons c cs ih =>
      intro hpair
      rw [List.pairwise_cons] at hpair
      by_cases hlt : a.name.data < c.name.data
      · rw [insertBlock, if_pos hlt]
        by_cases hpa : p a.name
        · by_cases hpc : p c.name
          · simp [List.filter_cons, hpa, hpc, insertBlock, hlt]
          · have hfront : insertBlock a (cs.filter (fun b => p b.name))
                = a :: cs.filter (fun b => p b.name) := by
              apply insertBlock_front
              intro x hx
              exact lt_of_lt_of_le hlt (hpair.1 x (List.mem_filter.1 hx).1)
            simp [List.filter_cons, hpa, hpc, hfront]
        · simp [List.filter_cons, hpa]
      · rw [insertBlock, if_neg hlt]
        have ihcs := ih hpair.2
        by_cases hpa : p a.name
        · by_cases hpc : p c.name
          · simp [List.filter_cons, hpa, hpc, ihcs, insertBlock, hlt]
          · simp [List.filter_cons, hpa, hpc, ihcs]
        · by_cases hpc : p c.name
          · simp [List.filter_cons, hpa, hpc, ihcs]
          · simp [List.filter_cons, hpa, hpc, ihcs]

/-- Filtering by a name predicate commutes with the walker's sort. -/
theorem sortBlocks_filter (p : String → Bool) :
    ∀ l : List EntryBlock,
      sortBlocks (l.filter (fun b => p b.name))
        = (sortBlocks l).filter (fun b => p b.name) := by
  intro l
  induction l with
  | nil => rfl
  | cons a as ih =>
      rw [List.filter_cons]
      by_cases hpa : p a.name
      · rw [if_pos hpa]
        simp only [sortBlocks]
        rw [ih, insertBlock_filter p a (sortBlocks as) (sortBlocks_pairwise as), if_pos hpa]
      · rw [if_neg hpa]
        simp only [sortBlocks]
        rw [ih, insertBlock_filter p a (sortBlocks as) (sortBlocks_pairwise as), if_neg hpa]

/-- Block pruning (which keeps names) commutes past an insertion. -/
theorem insertBlock_pruneMap (a : EntryBlock) :
    ∀ l : List EntryBlock,
      insertBlock (pruneBlockMap a) (l.map pruneBlockMap)
        = (insertBlock a l).map pruneBlockMap := by
  intro l
  induction l with
  | nil => rfl
  | cons c cs ih =>
      have hname : ∀ x : EntryBlock, (pruneBlockMap x).name = x.name := fun _ => rfl
      by_cases hlt : a.name.data < c.name.data
      · simp [insertBlock, hname, hlt]
      · simp [insertBlock, hname, hlt, ih]

/-- Block pruning commutes with the walker's sort. -/
theorem sortBlocks_pruneMap :
    ∀ l : List EntryBlock,
      sortBlocks (l.map pruneBlockMap) = (sortBlocks l).map pruneBlockMap := by
  intro l
  induction l with
  | nil => rfl
  | cons a as ih =>
      simp only [List.map_cons, sortBlocks, ih]
      exact insertBlock_pruneMap a (sortBlocks as)

/-- Block pruning commutes with filtering by a name predicate. -/
theorem filter_pruneMap (p : String → Bool) :
    ∀ l : List EntryBlock,
      (l.map pruneBlockMap).filter (fun b => p b.name)
        = (l.filter (fun b => p b.name)).map pruneBlockMap := by
  intro l
  induction l with
  | nil => rfl
  | cons a as ih =>
      by_cases hpa : p a.name
      · simp [List.filter_cons, pruneBlockMap, hpa, ih]
      · simp [List.filter_cons, pruneBlockMap, hpa, ih]

/-- Rendering one entry is unchanged by pruning its node: the tree line
depends only on the name and the node's classification, the sub-lines are
the stored renderings, and pruning changes neither. -/
theorem renderOneEntry_pruneMap (cfg : WalkCfg) (pre itemPtr : String) (b : EntryBlock) :
    renderOneEntry cfg pre itemPtr (pruneBlockMap b) = renderOneEntry cfg pre itemPtr b := by
  cases b with
  | mk n node s1 s2 => cases node <;> rfl

/-- Rendering a processed level is unchanged by pruning its blocks. -/
theorem renderProcessed_pruneMap (cfg : WalkCfg) (pre : String) :
    ∀ l : List EntryBlock,
      renderProcessed cfg pre (l.map pruneBlockMap) = renderProcessed cfg pre l
  | [] => rfl
  | [b] => by simp [renderProcessed, renderOneEntry_pruneMap]
  | b :: c :: cs => by
      have tail := renderProcessed_pruneMap cfg pre (c :: cs)
      simp only [List.map_cons] at tail ⊢
      calc renderProcessed cfg pre
              (pruneBlockMap b :: pruneBlockMap c :: List.map pruneBlockMap cs)
          = renderOneEntry cfg pre "├── " (pruneBlockMap b)
              ++ renderProcessed cfg pre (pruneBlockMap c :: List.map pruneBlockMap cs) := rfl
        _ = renderOneEntry cfg pre "├── " b ++ renderProcessed cfg pre (c :: cs) := by
              rw [renderOneEntry_pruneMap, tail]
        _ = renderProcessed cfg pre (b :: c :: cs) := rfl

/-- The keep-filter already rejects dot names, so adding the hidden filter
changes nothing. -/
theorem keepEntry_and_dot (cfg : WalkCfg) (atRoot : Bool) (n : String) :
    (keepEntry cfg atRoot n && !(startsWithDot n)) = keepEntry cfg atRoot n := by
  simp [keepEntry, Bool.and_assoc]

mutual
/-- Removing every dot-prefixed entry from the filesystem, at every level,
does not change the walker's output: the walker never renders them. -/
theorem walk_pruneHidden (cfg : WalkCfg) :
    ∀ (n : FSNode) (atRoot : Bool) (pre : String),
      writeFolderTreeRecursive cfg (pruneHidden n) atRoot pre
        = writeFolderTreeRecursive cfg n atRoot pre
  | FSNode.dir es, atRoot, pre => by
      show writeFolderTreeRecursive cfg (FSNode.dir (pruneHiddenEntries es)) atRoot pre
        = writeFolderTreeRecursive cfg (FSNode.dir es) atRoot pre
      rw [writeFolderTree_dir, writeFolderTree_dir]
      rw [entryBlocksOf_pruneHidden cfg es pre]
      show renderProcessed cfg pre
          (((sortBlocks (((entryBlocksOf cfg pre es).filter
              (fun b => !(startsWithDot b.name))).map pruneBlockMap))).filter
            (fun b => keepEntry cfg atRoot b.name)) = _
      rw [sortBlocks_pruneMap]
      rw [sortBlocks_filter (fun s => !(startsWithDot s)) (entryBlocksOf cfg pre es)]
      rw [filter_pruneMap (fun s => keepEntry cfg atRoot s)]
      rw [List.filter_filter]
      rw [List.filter_congr (fun b _ => keepEntry_and_dot cfg atRoot b.name)]
      exact renderProcessed_pruneMap cfg pre _
  | FSNode.dirDenied, _, _ => rfl
  | FSNode.dirVanished, _, _ => rfl
  | FSNode.file _, _, _ => rfl
  | FSNode.other, _, _ => rfl
/-- Listing-level part of `walk_pruneHidden`: the blocks of a pruned listing
are the original blocks minus the dot-named ones, with pruned nodes and
unchanged sub-renderings. -/
theorem entryBlocksOf_pruneHidden (cfg : WalkCfg) :
    ∀ (es : FSEntries) (pre : String),
      entryBlocksOf cfg pre (pruneHiddenEntries es)
        = ((entryBlocksOf cfg pre es).filter
             (fun b => !(startsWithDot b.name))).map pruneBlockMap
  | FSEntries.nil, _ => rfl
  | FSEntries.cons n node rest, pre => by
      by_cases hdot : startsWithDot n
      · show entryBlocksOf cfg pre (if startsWithDot n then pruneHiddenEntries rest
            else FSEntries.cons n (pruneHidden node) (pruneHiddenEntries rest)) = _
        rw [if_pos hdot, entryBlocksOf_pruneHidden cfg rest pre, entryBlocksOf_cons]
        rw [List.filter_cons]
        simp [hdot]
      · show entryBlocksOf cfg pre (if startsWithDot n then pruneHiddenEntries rest
            else FSEntries.cons n (pruneHidden node) (pruneHiddenEntries rest)) = _
        rw [if_neg hdot, entryBlocksOf_cons, entryBlocksOf_cons]
        rw [List.filter_cons]
        simp only [hdot, Bool.not_false, if_pos, List.map_cons]
        rw [entryBlocksOf_pruneHidden cfg rest pre]
        rw [walk_pruneHidden cfg node false (pre ++ "│   ")]
        rw [walk_pruneHidden cfg node false (pre ++ "    ")]
        rfl
end

/-- C3 counterexample: under the reference behavior the walker is claimed to
list dot-prefixed entries like any other at every level, but for a root
containing a subfolder `sub` whose listing holds `.cfg`, the code emits no
line for `.cfg` at all (no self-output name is even configured). -/
theorem c3_counterexample :
    writeFolderTreeRecursive ⟨none, false, []⟩
        (FSNode.dir (FSEntries.cons "sub"
          (FSNode.dir (FSEntries.cons ".cfg"
            (FSNode.file ⟨fun _ => DecodeOutcome.decodeFail, NotebookOutcome.jsonErr "e"⟩)
            FSEntries.nil))
          FSEntries.nil)) true ""
      = ["└── sub (folder)"]
  ∧ ".cfg" ∈ (FSEntries.cons ".cfg"
      (FSNode.file ⟨fun _ => DecodeOutcome.decodeFail, NotebookOutcome.jsonErr "e"⟩)
      FSEntries.nil).names := by
  exact ⟨rfl, by decide⟩

/-- C3 (amended): the treatment of hidden (dot-prefixed) entries is a
hardcoded rule of the walker, not a configurable policy flag: whatever the
per-run configuration, the walker's output is unchanged when every
dot-prefixed entry is removed from the filesystem at every level — the
walker never lists them anywhere in the tree. -/
theorem c3_hidden_hardcoded (cfg : WalkCfg) (n : FSNode) (atRoot : Bool) (pre : String) :
    writeFolderTreeRecursive cfg (pruneHidden n) atRoot pre
      = writeFolderTreeRecursive cfg n atRoot pre :=
  walk_pruneHidden cfg n atRoot pre
